import Mathlib

/-!
Verification of the media-sharing API (FastAPI app in `app/app.py`,
schemas in `app/schemas.py`, database model in `app/db.py`).

The development shallowly embeds the two components:

* the Post Registry: the module-level Python dict `text_posts`, modelled as an
  insertion-ordered association list `List (Int × PostData)` (Python dicts
  preserve insertion order, and assignment to a fresh key appends);
* the File Metadata Store: the SQLite-backed `posts` table, modelled as a list
  of `FileRecord`s in insertion order, with `SELECT ... ORDER BY created_at
  DESC` modelled as a stable merge sort on the `created_at` column.

Timestamps (`datetime.utcnow()`) are modelled as microseconds since the Unix
epoch; `datetime.isoformat()` is modelled by an executable Gregorian-calendar
formatter (`isoformat`).
-/

namespace MediaSharing

/-- A post's text payload, as in `schemas.py` (`PostCreate` / `PostResponse`
both carry exactly `title : str` and `content : str`). -/
structure PostData where
  title : String
  content : String
deriving DecidableEq, Repr

/-- The in-memory post registry: the Python dict `text_posts`, as an
insertion-ordered association list from integer ids to post data. -/
abbrev Registry := List (Int × PostData)

/-- The ten seed posts of `text_posts` (app.py lines 29-70), verbatim. -/
def seedRegistry : Registry := [
  (1, ⟨"Getting Started with FastAPI",
       "FastAPI is a modern, fast web framework for building APIs with Python. It is easy to learn and very powerful."⟩),
  (2, ⟨"Why Use Python for Web APIs",
       "Python offers a clean syntax, a huge ecosystem of libraries, and excellent community support for backend development."⟩),
  (3, ⟨"Understanding RESTful Endpoints",
       "RESTful APIs are based on standard HTTP methods such as GET, POST, PUT, and DELETE to manage resources."⟩),
  (4, ⟨"FastAPI vs Flask",
       "While Flask is lightweight and flexible, FastAPI provides built-in data validation and automatic API documentation."⟩),
  (5, ⟨"Working with Path Parameters",
       "Path parameters allow you to pass dynamic values in the URL and are commonly used to identify specific resources."⟩),
  (6, ⟨"Using Query Parameters Effectively",
       "Query parameters are useful for filtering, sorting, and paginating API responses without changing the endpoint path."⟩),
  (7, ⟨"Request Validation with Pydantic",
       "Pydantic models ensure that incoming request data is validated and parsed correctly before reaching your logic."⟩),
  (8, ⟨"Handling Errors Gracefully",
       "Proper error handling improves user experience by returning clear messages and appropriate HTTP status codes."⟩),
  (9, ⟨"Automatic API Documentation",
       "FastAPI automatically generates interactive API documentation using Swagger UI and ReDoc."⟩),
  (10, ⟨"Deploying a FastAPI Application",
       "You can deploy FastAPI apps using tools like Uvicorn, Docker, and cloud platforms such as AWS or Azure."⟩)]

/-- Dict key lookup (`text_posts.get(id)` / `id in text_posts`): the value at
the first matching key. Python dict keys are unique, so "first" is exact. -/
def Registry.lookup (r : Registry) (id : Int) : Option PostData :=
  (r.find? (fun p => p.1 == id)).map Prod.snd

/-- `text_posts.keys()` in insertion order. -/
def Registry.keys (r : Registry) : List Int := r.map Prod.fst

/-- `text_posts.values()` in insertion order. -/
def Registry.values (r : Registry) : List PostData := r.map Prod.snd

/-- The error outcomes the HTTP layer can produce: FastAPI request validation
(422), the explicit `HTTPException(404, "Post not found.")`, and an unhandled
exception surfacing as a 500 Internal Server Error. -/
inductive ApiError where
  | validation
  | notFound (detail : String)
  | internal
deriving DecidableEq, Repr

/-- The HTTP status of each error kind. -/
def ApiError.status : ApiError → Nat
  | .validation => 422
  | .notFound _ => 404
  | .internal => 500

/-- `max(...)` of a Python iterable of ints: `none` on an empty iterable
(where Python raises `ValueError`). -/
def pyMax : List Int → Option Int
  | [] => none
  | k :: ks =>
    match pyMax ks with
    | none => some k
    | some m => some (max k m)

/-- `GET /posts` (app.py `get_posts`): `limit` is declared
`Query(10, ge=1, le=100)`, so FastAPI rejects out-of-range values with a 422
before the handler runs; the handler returns
`list(text_posts.values())[:limit]`. The handler only reads `text_posts`, so
the registry after the request (second component) is the registry before
it. -/
def getPosts (r : Registry) (limit : Int) :
    (Except ApiError (List PostData)) × Registry :=
  if limit < 1 ∨ 100 < limit then
    (.error .validation, r)
  else
    (.ok (Registry.values r |>.take limit.toNat), r)

/-- `GET /posts/{id}` (app.py `get_post`): 404 with detail "Post not found."
when the id is absent, otherwise `text_posts.get(id)`. The handler only reads
`text_posts`, so the registry after the request is the registry before it. -/
def getPost (r : Registry) (id : Int) : (Except ApiError PostData) × Registry :=
  match Registry.lookup r id with
  | none => (.error (.notFound "Post not found."), r)
  | some p => (.ok p, r)

/-- Pydantic parsing of the `POST /posts` body against `PostCreate`
(schemas.py): both fields are required (`title : str`, `content : str`), and a
missing field is a 422; any string value, including the empty string, is
accepted — `PostCreate` declares no `min_length` constraint. -/
def parsePostCreate (title? content? : Option String) : Except ApiError PostData :=
  match title?, content? with
  | some t, some c => .ok ⟨t, c⟩
  | _, _ => .error .validation

/-- The body of `create_post` (app.py lines 97-103): build the response from
the parsed body and store it under key `max(text_posts.keys()) + 1`;
assignment to a fresh key appends to the dict. `none` models the `ValueError`
Python's `max` raises on an empty dict (never reached from the seeded
registry). -/
def createPost (r : Registry) (p : PostData) : Option (Registry × PostData) :=
  match pyMax (Registry.keys r) with
  | none => none
  | some m => some (r ++ [(m + 1, p)], p)

/-- The full `POST /posts` endpoint: Pydantic validation, then the handler
body; a success is returned with status 201 (`status.HTTP_201_CREATED`).
The second component is the registry after the request. -/
def createPostEndpoint (r : Registry) (title? content? : Option String) :
    (Except ApiError (Nat × PostData)) × Registry :=
  match parsePostCreate title? content? with
  | .error e => (.error e, r)
  | .ok p =>
    match createPost r p with
    | none => (.error .internal, r)
    | some (r', resp) => (.ok (201, resp), r')

/-! ## File Metadata Store (db.py `Post` table, app.py `upload_file` / `get_files`)

The table lives in SQLite (`DATABASE_URL = "sqlite+aiosqlite:///./test.db"`,
db.py line 11). Two backend facts matter for the embedding: SQLite enforces
`nullable=False` (a NULL in `file_type`/`file_name`/`url` makes the commit
fail), but it does NOT enforce the declared `String(50)` / `String(200)`
lengths — over-long values are stored unmodified, and the application code
performs no length validation of its own. -/

/-- A row of the `posts` table (db.py `Post`): the UUID primary key is
modelled as a `Nat` (what matters is that each insert generates a fresh one),
`created_at` as microseconds since the epoch (the information content of the
`datetime.utcnow()` default). -/
structure FileRecord where
  id : Nat
  caption : Option String
  url : String
  file_type : String
  file_name : String
  created_at : Nat
deriving DecidableEq, Repr

/-- The `posts` table, in insertion order. -/
abbrev FileDb := List FileRecord

/-- Response body of `POST /files/upload`: exactly
`{"id": new_post.id, "caption": new_post.caption, "url": new_post.url}`. -/
structure UploadResponse where
  id : Nat
  caption : Option String
  url : String
deriving DecidableEq, Repr

/-- `POST /files/upload` (app.py `upload_file`): builds a `Post` row with
`url = "/files/" + filename`, `file_type =` the declared content-type,
`file_name = filename`, and commits it. The uploaded bytes (`fileBytes`) are
never read. A `None` content-type violates `nullable=False` at commit time
(500); there is no length check (SQLite ignores `String(50)`/`String(200)`).
`freshId` is the `uuid4` generated for the row and `now` the `utcnow`
default. -/
def uploadFile (db : FileDb) (freshId now : Nat) (fileBytes : List Nat)
    (filename : String) (contentType? : Option String) (caption : String) :
    Except ApiError (FileDb × UploadResponse) :=
  match contentType? with
  | none => .error .internal
  | some ct =>
    let row : FileRecord :=
      ⟨freshId, some caption, "/files/" ++ filename, ct, filename, now⟩
    .ok (db ++ [row], ⟨row.id, row.caption, row.url⟩)

/-- `SELECT ... ORDER BY created_at DESC`: a stable sort of the table rows by
descending `created_at`. -/
def sortByCreatedAtDesc (db : FileDb) : FileDb :=
  db.mergeSort (fun a b => b.created_at ≤ a.created_at)

/-- Left-pad the decimal digits of `n` with zeros to width `w`. -/
def padNum (w n : Nat) : String :=
  let s := toString n
  String.mk (List.replicate (w - s.length) '0') ++ s

/-- Days since 1970-01-01 to `(year, month, day)` in the proleptic Gregorian
calendar (the standard era-based conversion). -/
def civilFromDays (z : Nat) : Nat × Nat × Nat :=
  let z' := z + 719468
  let era := z' / 146097
  let doe := z' % 146097
  let yoe := (doe - doe / 1460 + doe / 36524 - doe / 146096) / 365
  let y := yoe + era * 400
  let doy := doe - (365 * yoe + yoe / 4 - yoe / 100)
  let mp := (5 * doy + 2) / 153
  let d := doy - (153 * mp + 2) / 5 + 1
  let m := if mp < 10 then mp + 3 else mp - 9
  (if m ≤ 2 then y + 1 else y, m, d)

/-- Model of Python's `datetime.isoformat()` on a UTC timestamp given as
microseconds since the epoch: `YYYY-MM-DDTHH:MM:SS`, with a `.ffffff`
microsecond suffix exactly when the microsecond part is nonzero. -/
def isoformat (us : Nat) : String :=
  let micro := us % 1000000
  let totalSec := us / 1000000
  let s := totalSec % 60
  let totalMin := totalSec / 60
  let mi := totalMin % 60
  let totalHour := totalMin / 60
  let h := totalHour % 24
  let days := totalHour / 24
  let ymd := civilFromDays days
  padNum 4 ymd.1 ++ "-" ++ padNum 2 ymd.2.1 ++ "-" ++ padNum 2 ymd.2.2 ++ "T" ++
    padNum 2 h ++ ":" ++ padNum 2 mi ++ ":" ++ padNum 2 s ++
    (if micro == 0 then "" else "." ++ padNum 6 micro)

/-- One serialized entry of the `GET /files` response (app.py lines 153-163):
`id` rendered as a string, `created_at` in ISO-8601. -/
structure SerializedFile where
  id : String
  caption : Option String
  url : String
  file_type : String
  file_name : String
  created_at : String
deriving DecidableEq, Repr

/-- The `GET /files` response envelope: a single key `"posts"`. -/
structure FilesResponse where
  posts : List SerializedFile
deriving DecidableEq, Repr

/-- The per-row serialization in `get_files`: `str(post.id)`, the stored
caption/url/file_type/file_name, and `post.created_at.isoformat()`. -/
def serializeFile (r : FileRecord) : SerializedFile :=
  ⟨toString r.id, r.caption, r.url, r.file_type, r.file_name, isoformat r.created_at⟩

/-- `GET /files` (app.py `get_files`): all rows ordered by `created_at`
descending, serialized, wrapped under the key `posts`. -/
def getFiles (db : FileDb) : FilesResponse :=
  ⟨(sortByCreatedAtDesc db).map serializeFile⟩

/-- One upload request's data, for iterating uploads: the (ignored) bytes,
the filename, a non-null declared content-type, the caption, and the
`utcnow` timestamp at which the insert runs. -/
structure UploadInput where
  bytes : List Nat
  filename : String
  contentType : String
  caption : String
  now : Nat
deriving Repr

/-- Run a sequence of uploads against the store, each with a fresh
(consecutively generated) id. Every upload here carries a non-null
content-type, so each one commits. -/
def uploadAll (db : FileDb) (startId : Nat) : List UploadInput → FileDb
  | [] => db
  | i :: rest =>
    match uploadFile db startId i.now i.bytes i.filename (some i.contentType) i.caption with
    | .ok (db', _) => uploadAll db' (startId + 1) rest
    | .error _ => db

/-- The row a single `UploadInput` commits, given its generated id. -/
def rowOf (id : Nat) (i : UploadInput) : FileRecord :=
  ⟨id, some i.caption, "/files/" ++ i.filename, i.contentType, i.filename, i.now⟩

/-- The rows committed by `uploadAll`, with ids `startId, startId+1, ...`. -/
def rowsOf (startId : Nat) : List UploadInput → List FileRecord
  | [] => []
  | i :: rest => rowOf startId i :: rowsOf (startId + 1) rest

/-! ## Helper lemmas -/

theorem pyMax_eq_none {l : List Int} : pyMax l = none ↔ l = [] := by
  cases l with
  | nil => simp [pyMax]
  | cons a l => simp only [pyMax]; cases pyMax l <;> simp

theorem pyMax_le {l : List Int} {m : Int} (h : pyMax l = some m) :
    ∀ k ∈ l, k ≤ m := by
  induction l generalizing m with
  | nil => simp [pyMax] at h
  | cons a l ih =>
    intro k hk
    cases hl : pyMax l with
    | none =>
      have hnil : l = [] := pyMax_eq_none.mp hl
      subst hnil
      have ha : a = m := by simpa [pyMax] using h
      have hka : k = a := by simpa using hk
      omega
    | some m' =>
      simp only [pyMax, hl] at h
      have hm : max a m' = m := by simpa using h
      rcases List.mem_cons.mp hk with h1 | h2
      · exact h1 ▸ hm ▸ le_max_left a m'
      · exact le_trans (ih hl k h2) (hm ▸ le_max_right a m')

theorem pyMax_isSome {l : List Int} (h : l ≠ []) : ∃ m, pyMax l = some m := by
  cases hl : pyMax l with
  | none => exact absurd (pyMax_eq_none.mp hl) h
  | some m => exact ⟨m, rfl⟩

theorem lookup_append_left {r r₂ : Registry} {i : Int} {p : PostData}
    (h : Registry.lookup r i = some p) :
    Registry.lookup (r ++ r₂) i = some p := by
  simp only [Registry.lookup, List.find?_append]
  simp only [Registry.lookup] at h
  cases hf : r.find? (fun q => q.1 == i) with
  | none => rw [hf] at h; simp at h
  | some q => rw [hf] at h; simpa [Option.or] using h

theorem lookup_eq_none_iff {r : Registry} {i : Int} :
    Registry.lookup r i = none ↔ i ∉ Registry.keys r := by
  simp only [Registry.lookup, Registry.keys, Option.map_eq_none',
    List.find?_eq_none, List.mem_map, beq_iff_eq]
  constructor
  · rintro h ⟨q, hq, hqi⟩
    exact h q hq hqi
  · intro h q hq hqi
    exact h ⟨q, hq, hqi⟩

theorem lookup_append_fresh {r : Registry} {k : Int} (p : PostData)
    (hk : k ∉ Registry.keys r) :
    Registry.lookup (r ++ [(k, p)]) k = some p := by
  simp only [Registry.lookup, List.find?_append]
  have h0 : r.find? (fun q => q.1 == k) = none := by
    have := lookup_eq_none_iff.mpr hk
    simp only [Registry.lookup, Option.map_eq_none'] at this
    exact this
  simp [h0, List.find?]

theorem keys_append_single {r : Registry} {k : Int} {p : PostData} :
    Registry.keys (r ++ [(k, p)]) = Registry.keys r ++ [k] := by
  simp [Registry.keys]

/-! ## Claim theorems -/

/-- C1: for every integer `limit` in [1,100], `GET /posts?limit=limit`
succeeds and returns the first `min(limit, total_posts)` posts of the
registry, a prefix of the posts in stable seed/insertion order; for every
`limit` outside [1,100] it fails with a validation error. -/
theorem getPosts_spec (r : Registry) (limit : Int) :
    (1 ≤ limit → limit ≤ 100 →
      (getPosts r limit).1 = .ok ((Registry.values r).take limit.toNat) ∧
      ((Registry.values r).take limit.toNat).length
        = min limit.toNat (Registry.values r).length ∧
      (Registry.values r).take limit.toNat <+: Registry.values r) ∧
    ((limit < 1 ∨ 100 < limit) → (getPosts r limit).1 = .error .validation) := by
  constructor
  · intro h1 h2
    have hcond : ¬(limit < 1 ∨ 100 < limit) := by omega
    refine ⟨?_, List.length_take _ _, List.take_prefix _ _⟩
    simp [getPosts, hcond]
  · intro h
    simp [getPosts, h]

/-- C1 witness: `limit = 3` is in range and returns the 3-element prefix of
the seed registry; `limit = 0` and `limit = 101` are rejected. -/
theorem getPosts_spec_witness :
    (getPosts seedRegistry 3).1
      = .ok ((Registry.values seedRegistry).take (Int.toNat 3)) ∧
    (getPosts seedRegistry 0).1 = .error .validation ∧
    (getPosts seedRegistry 101).1 = .error .validation :=
  ⟨((getPosts_spec seedRegistry 3).1 (by decide) (by decide)).1,
   (getPosts_spec seedRegistry 0).2 (by decide),
   (getPosts_spec seedRegistry 101).2 (by decide)⟩

/-- C5: `GET /posts/{id}` returns the stored post when `id` is a key of the
registry and fails with 404, detail "Post not found.", when it is not; in
both cases the registry after the request equals the registry before it. The
seed registry's ids are exactly 1..10, and fetching any seeded id returns the
exact seeded title/content. -/
theorem getPost_spec (r : Registry) (id : Int) :
    (∀ p, Registry.lookup r id = some p → getPost r id = (.ok p, r)) ∧
    (id ∉ Registry.keys r →
      getPost r id = (.error (.notFound "Post not found."), r)) ∧
    (getPost r id).2 = r ∧
    Registry.keys seedRegistry = [1, 2, 3, 4, 5, 6, 7, 8, 9, 10] ∧
    (∀ q ∈ seedRegistry, Registry.lookup seedRegistry q.1 = some q.2) := by
  refine ⟨?_, ?_, ?_, by decide, by decide⟩
  · intro p hp
    simp [getPost, hp]
  · intro h
    have hnone := lookup_eq_none_iff.mpr h
    simp [getPost, hnone]
  · unfold getPost
    cases Registry.lookup r id <;> rfl

/-- C5 witness: id 42 is absent from the seed registry, so the fetch answers
404 with "Post not found." and leaves the registry as it was. -/
theorem getPost_spec_witness :
    getPost seedRegistry 42 = (.error (.notFound "Post not found."), seedRegistry) :=
  (getPost_spec seedRegistry 42).2.1 (by decide)

/-- C2: with `m` the maximum existing id, `create` with title `t` and content
`c` stores the new post under `new_id = m + 1` (appended to the registry) and
a subsequent fetch of `new_id` returns exactly `{title: t, content: c}`. -/
theorem createPost_then_getPost (r : Registry) (t c : String) (m : Int)
    (hm : pyMax (Registry.keys r) = some m) :
    createPost r ⟨t, c⟩ = some (r ++ [(m + 1, ⟨t, c⟩)], ⟨t, c⟩) ∧
    (getPost (r ++ [(m + 1, ⟨t, c⟩)]) (m + 1)).1 = .ok ⟨t, c⟩ := by
  have hfresh : (m + 1) ∉ Registry.keys r := fun hmem =>
    absurd (pyMax_le hm _ hmem) (by omega)
  constructor
  · simp [createPost, hm]
  · simp [getPost, lookup_append_fresh _ hfresh]

/-- C2 witness: on the seed registry (max id 10) a created post gets id 11
and is returned by the subsequent fetch. -/
theorem createPost_then_getPost_witness :
    createPost seedRegistry ⟨"T", "C"⟩
      = some (seedRegistry ++ [((10 : Int) + 1, ⟨"T", "C"⟩)], ⟨"T", "C"⟩) ∧
    (getPost (seedRegistry ++ [((10 : Int) + 1, ⟨"T", "C"⟩)]) ((10 : Int) + 1)).1
      = .ok ⟨"T", "C"⟩ :=
  createPost_then_getPost seedRegistry "T" "C" 10 (by decide)

/-- C10: on any registry with maximum id `m`, create adds exactly one entry,
under the fresh key `m + 1`: that key was not previously present (so nothing
is overwritten), every pre-existing entry is still present and lookups of all
pre-existing keys are unchanged, and the size grows by exactly one. -/
theorem createPost_frame (r : Registry) (p : PostData) (m : Int)
    (hm : pyMax (Registry.keys r) = some m) :
    createPost r p = some (r ++ [(m + 1, p)], p) ∧
    (m + 1) ∉ Registry.keys r ∧
    (r ++ [(m + 1, p)]).length = r.length + 1 ∧
    (∀ q ∈ r, q ∈ r ++ [(m + 1, p)]) ∧
    (∀ i : Int, i ∈ Registry.keys r →
      Registry.lookup (r ++ [(m + 1, p)]) i = Registry.lookup r i) := by
  have hfresh : (m + 1) ∉ Registry.keys r := fun hmem =>
    absurd (pyMax_le hm _ hmem) (by omega)
  refine ⟨by simp [createPost, hm], hfresh, by simp,
    fun q hq => List.mem_append_left _ hq, ?_⟩
  intro i hi
  cases hl : Registry.lookup r i with
  | none => exact absurd hi (lookup_eq_none_iff.mp hl)
  | some q => rw [lookup_append_left hl]

/-- C10 witness: creating on the seed registry (max id 10) grows it from 10
to 11 entries. -/
theorem createPost_frame_witness :
    (seedRegistry ++ [((10 : Int) + 1, (⟨"T", "C"⟩ : PostData))]).length
      = seedRegistry.length + 1 :=
  (createPost_frame seedRegistry ⟨"T", "C"⟩ 10 (by decide)).2.2.1

/-- C6 counterexample: the body `{"title": "", "content": ""}` passes
validation — `PostCreate` only requires the fields to be present strings —
so, on the seed registry, create stores the empty post under id 11 and
answers 201 instead of failing. -/
theorem createPost_accepts_empty_strings :
    (createPostEndpoint seedRegistry (some "") (some "")).1
        = .ok (201, ⟨"", ""⟩) ∧
    (createPostEndpoint seedRegistry (some "") (some "")).2
        = seedRegistry ++ [(11, ⟨"", ""⟩)] :=
  ⟨rfl, rfl⟩

/-- C6 (amended): the create operation requires both title and content to be
present: a request missing either field fails validation and stores nothing;
any present string values — the empty string included — are accepted: the
post is stored under the next id and returned with status 201. -/
theorem createPostEndpoint_spec (r : Registry) (title? content? : Option String) :
    ((title? = none ∨ content? = none) →
      createPostEndpoint r title? content? = (.error .validation, r)) ∧
    (∀ t c m, title? = some t → content? = some c →
      pyMax (Registry.keys r) = some m →
      createPostEndpoint r title? content?
        = (.ok (201, ⟨t, c⟩), r ++ [(m + 1, ⟨t, c⟩)])) := by
  constructor
  · rintro (rfl | rfl)
    · cases content? <;> simp [createPostEndpoint, parsePostCreate]
    · cases title? <;> simp [createPostEndpoint, parsePostCreate]
  · rintro t c m rfl rfl hm
    simp [createPostEndpoint, parsePostCreate, createPost, hm]

/-- C6 witness: a missing title is rejected with nothing stored; a present
(non-empty) title/content pair is stored under id 11 with status 201. -/
theorem createPostEndpoint_spec_witness :
    createPostEndpoint seedRegistry none (some "C")
      = (.error .validation, seedRegistry) ∧
    createPostEndpoint seedRegistry (some "T") (some "C")
      = (.ok (201, ⟨"T", "C"⟩), seedRegistry ++ [((10 : Int) + 1, ⟨"T", "C"⟩)]) :=
  ⟨(createPostEndpoint_spec seedRegistry none (some "C")).1 (Or.inl rfl),
   (createPostEndpoint_spec seedRegistry (some "T") (some "C")).2
     "T" "C" 10 rfl rfl (by decide)⟩

/-- The registry after a `GET /posts` request is the registry before it: the
handler only reads `text_posts`. -/
theorem getPosts_state (r : Registry) (limit : Int) : (getPosts r limit).2 = r := by
  unfold getPosts
  split <;> rfl

/-- The registry after a `GET /posts/{id}` request is the registry before
it: the handler only reads `text_posts`. -/
theorem getPost_state (r : Registry) (id : Int) : (getPost r id).2 = r := by
  unfold getPost
  cases Registry.lookup r id <;> rfl

/-- The Post Registry invariant of the spec: ids are unique, all ten seed
entries are present, hence the registry is non-empty with at least 10
entries. -/
def RegistryInv (r : Registry) : Prop :=
  (Registry.keys r).Nodup ∧ (∀ q ∈ seedRegistry, q ∈ r) ∧ r ≠ [] ∧ 10 ≤ r.length

/-- C8: the seed registry satisfies the invariant, and each of the three
operations — list, fetch-by-id, create — preserves it. -/
theorem registry_operations_preserve_inv (r : Registry)
    (id limit : Int) (title? content? : Option String) (h : RegistryInv r) :
    RegistryInv seedRegistry ∧
    RegistryInv (getPosts r limit).2 ∧
    RegistryInv (getPost r id).2 ∧
    RegistryInv (createPostEndpoint r title? content?).2 := by
  obtain ⟨hnodup, hseed, hne, hlen⟩ := h
  have hInv : RegistryInv r := ⟨hnodup, hseed, hne, hlen⟩
  refine ⟨⟨by decide, fun q hq => hq, by decide, by decide⟩,
    by rw [getPosts_state]; exact hInv,
    by rw [getPost_state]; exact hInv, ?_⟩
  cases hp : parsePostCreate title? content? with
  | error e => simpa [createPostEndpoint, hp] using hInv
  | ok p =>
    cases hmx : pyMax (Registry.keys r) with
    | none =>
      have : r = [] := by
        have := pyMax_eq_none.mp hmx
        simpa [Registry.keys] using this
      exact absurd this hne
    | some m =>
      have hc : createPost r p = some (r ++ [(m + 1, p)], p) := by
        simp [createPost, hmx]
      have hstate : (createPostEndpoint r title? content?).2 = r ++ [(m + 1, p)] := by
        simp [createPostEndpoint, hp, hc]
      rw [hstate]
      refine ⟨?_, fun q hq => List.mem_append_left _ (hseed q hq), by simp, ?_⟩
      · rw [keys_append_single, List.nodup_append]
        refine ⟨hnodup, List.nodup_singleton _, fun a ha hb => ?_⟩
        have hle := pyMax_le hmx a ha
        have : a = m + 1 := by simpa using hb
        omega
      · simp only [List.length_append, List.length_singleton]
        omega

/-- C8 witness: the seed registry satisfies the invariant, and it is
preserved across a fetch and a create. -/
theorem registry_operations_preserve_inv_witness :
    RegistryInv (getPost seedRegistry 3).2 ∧
    RegistryInv (createPostEndpoint seedRegistry (some "T") (some "C")).2 :=
  ⟨(registry_operations_preserve_inv seedRegistry 3 5 (some "T") (some "C")
      ⟨by decide, fun q hq => hq, by decide, by decide⟩).2.2.1,
   (registry_operations_preserve_inv seedRegistry 3 5 (some "T") (some "C")
      ⟨by decide, fun q hq => hq, by decide, by decide⟩).2.2.2⟩

/-- C3: the upload's result never depends on the uploaded bytes (they are
discarded), and a successful upload commits exactly one new row with
`url = "/files/" + filename` and `file_type =` the declared content-type,
returning exactly the fields `{id, caption, url}`. -/
theorem uploadFile_spec (db : FileDb) (freshId now : Nat)
    (bytes bytes' : List Nat) (fn ct cap : String) :
    uploadFile db freshId now bytes fn (some ct) cap
      = uploadFile db freshId now bytes' fn (some ct) cap ∧
    uploadFile db freshId now bytes fn (some ct) cap
      = .ok (db ++ [⟨freshId, some cap, "/files/" ++ fn, ct, fn, now⟩],
             ⟨freshId, some cap, "/files/" ++ fn⟩) :=
  ⟨rfl, rfl⟩

/-- The stable descending sort of the store is a permutation of it. -/
theorem sortByCreatedAtDesc_perm (db : FileDb) : List.Perm (sortByCreatedAtDesc db) db :=
  List.mergeSort_perm db _

/-- The stable descending sort of the store is pairwise descending in
`created_at`. -/
theorem sortByCreatedAtDesc_pairwise (db : FileDb) :
    (sortByCreatedAtDesc db).Pairwise (fun a b => b.created_at ≤ a.created_at) := by
  have hs := @List.sorted_mergeSort FileRecord
    (fun a b : FileRecord => decide (b.created_at ≤ a.created_at))
    (fun a b c hab hbc => by
      simp only [decide_eq_true_eq] at *
      omega)
    (fun a b => by
      simp only [Bool.or_eq_true, decide_eq_true_eq]
      omega)
    db
  exact hs.imp (fun h => by simpa using h)

/-- Appending uploads with consecutively generated fresh ids commits exactly
the corresponding rows, in order, after the existing ones. -/
theorem uploadAll_eq (ins : List UploadInput) :
    ∀ (db : FileDb) (s : Nat), uploadAll db s ins = db ++ rowsOf s ins := by
  induction ins with
  | nil => intro db s; simp [uploadAll, rowsOf]
  | cons i rest ih =>
    intro db s
    simp only [uploadAll, uploadFile, rowsOf, rowOf]
    rw [ih]
    simp

/-- The ids of the rows committed by `uploadAll` are the consecutive range
starting at the first generated id. -/
theorem rowsOf_map_id (ins : List UploadInput) :
    ∀ s : Nat, (rowsOf s ins).map FileRecord.id = List.range' s ins.length := by
  induction ins with
  | nil => intro s; simp [rowsOf]
  | cons i rest ih =>
    intro s
    simp [rowsOf, rowOf, List.range'_succ, ih]

/-- `uploadAll` commits one row per input. -/
theorem rowsOf_length (ins : List UploadInput) (s : Nat) :
    (rowsOf s ins).length = ins.length := by
  have h := congrArg List.length (rowsOf_map_id ins s)
  simpa using h

/-- C4: starting from an empty store, running any sequence of `N` uploads
(fresh ids generated consecutively from `s`) and then listing returns exactly
`N` records: the listed rows are a permutation of the committed rows (no
loss), their ids are pairwise distinct (no duplicates), and they are ordered
by descending `created_at`. -/
theorem uploadAll_getFiles_roundtrip (s : Nat) (ins : List UploadInput) :
    (getFiles (uploadAll [] s ins)).posts.length = ins.length ∧
    List.Perm (sortByCreatedAtDesc (uploadAll [] s ins)) (rowsOf s ins) ∧
    ((sortByCreatedAtDesc (uploadAll [] s ins)).map FileRecord.id).Nodup ∧
    (sortByCreatedAtDesc (uploadAll [] s ins)).Pairwise
      (fun a b => b.created_at ≤ a.created_at) ∧
    (getFiles (uploadAll [] s ins)).posts
      = (sortByCreatedAtDesc (uploadAll [] s ins)).map serializeFile := by
  have hdb : uploadAll [] s ins = rowsOf s ins := by
    simpa using uploadAll_eq ins [] s
  have hperm : List.Perm (sortByCreatedAtDesc (uploadAll [] s ins)) (rowsOf s ins) := by
    rw [hdb]
    exact sortByCreatedAtDesc_perm _
  refine ⟨?_, hperm, ?_, sortByCreatedAtDesc_pairwise _, rfl⟩
  · simp only [getFiles, List.length_map]
    rw [hperm.length_eq, rowsOf_length]
  · have hmap : List.Perm ((sortByCreatedAtDesc (uploadAll [] s ins)).map FileRecord.id)
        ((rowsOf s ins).map FileRecord.id) := hperm.map _
    rw [hmap.nodup_iff, rowsOf_map_id]
    exact List.nodup_range' s ins.length

/-- C7: `GET /files` returns a permutation of all stored records — ordered by
descending `created_at` — each serialized as the six fields with `id`
rendered as a string and `created_at` in ISO-8601 form, wrapped under the
single key `posts`. -/
theorem getFiles_spec (db : FileDb) :
    ∃ l : FileDb,
      List.Perm l db ∧
      l.Pairwise (fun a b => b.created_at ≤ a.created_at) ∧
      getFiles db = ⟨l.map serializeFile⟩ ∧
      ∀ r ∈ l, serializeFile r = ⟨toString r.id, r.caption, r.url,
        r.file_type, r.file_name, isoformat r.created_at⟩ :=
  ⟨sortByCreatedAtDesc db, sortByCreatedAtDesc_perm db,
   sortByCreatedAtDesc_pairwise db, rfl, fun _ _ => rfl⟩

/-- C9, at its failing input: a declared content-type of 51 characters is
committed unmodified — the handler performs no length validation and SQLite
does not enforce the declared `String(50)` bound — so the store then holds a
row whose `file_type` exceeds 50 characters. -/
theorem uploadFile_stores_overlong_file_type :
    ∃ db' resp, uploadFile [] 0 0 [] "a.png"
        (some "aaaaaaaaaaaaaaaaaaaaaaaaaaaaaaaaaaaaaaaaaaaaaaaaaaa") "hi"
        = .ok (db', resp) ∧
      ∃ row ∈ db', 50 < row.file_type.length :=
  ⟨_, _, rfl,
   ⟨0, some "hi", "/files/a.png",
     "aaaaaaaaaaaaaaaaaaaaaaaaaaaaaaaaaaaaaaaaaaaaaaaaaaa", "a.png", 0⟩,
   by simp [List.mem_singleton], by decide⟩

end MediaSharing
